import Mathlib

/-!
Verification development for the marvin_bot voice assistant.

The Python sources are shallowly embedded here.  Strings are modelled as
lists of characters (the type Str below); Python string methods used by the
program (lower, strip, split, startswith, replace, int(), isdigit) are
translated to executable Lean functions over Str.  The embedding covers the
ASCII fragment of Python text processing: Python methods such as str.lower
and int() additionally handle non-ASCII unicode classes, which the directive
strings of this program do not exercise.
-/

namespace Marvin

/-- Strings of the embedding: a Python str is a list of characters. -/
abbrev Str := List Char

/-- Coerce a Lean string literal to the embedding type. -/
def strL (s : String) : Str := s.data

/-! ## Python string primitives -/

/-- Model of the lower-casing of one character by str.lower (ASCII fragment):
characters A-Z move to a-z, all others are unchanged. -/
def pyLowerChar (c : Char) : Char :=
  if 65 ≤ c.toNat ∧ c.toNat ≤ 90 then Char.ofNat (c.toNat + 32) else c

/-- Model of str.lower, applied character by character. -/
def pyLower (s : Str) : Str := s.map pyLowerChar

/-- Model of str.replace for single characters, as in replace(" ", "_"). -/
def replaceChar (a b : Char) (s : Str) : Str :=
  s.map (fun c => if c = a then b else c)

/-- The six ASCII whitespace characters recognised by str.strip, str.split
and the regex class backslash-s. -/
def isPyWs (c : Char) : Bool :=
  c == ' ' || c == '\t' || c == '\n' || c == '\r' || c == '\x0b' || c == '\x0c'

/-- Model of str.strip with no argument: remove leading and trailing
whitespace. -/
def pyStrip (s : Str) : Str :=
  ((s.dropWhile isPyWs).reverse.dropWhile isPyWs).reverse

/-- Worker for pySplitWs: cur holds the characters of the token being read,
in reverse order. -/
def pySplitWsAux (cur : Str) : Str → List Str
  | [] => if cur.isEmpty then [] else [cur.reverse]
  | c :: cs =>
    if isPyWs c then
      if cur.isEmpty then pySplitWsAux [] cs
      else cur.reverse :: pySplitWsAux [] cs
    else pySplitWsAux (c :: cur) cs

/-- Model of str.split with no argument: split on runs of whitespace,
discarding empty pieces. -/
def pySplitWs (s : Str) : List Str := pySplitWsAux [] s

/-- Split at the first occurrence of a separator character, as in the
Python call split(sep, 1); none when the separator does not occur. -/
def splitFirst (sep : Char) : Str → Option (Str × Str)
  | [] => none
  | c :: cs =>
    if c = sep then some ([], cs)
    else (splitFirst sep cs).map (fun p => (c :: p.1, p.2))

theorem splitFirst_length {sep : Char} :
    ∀ {s a b : Str}, splitFirst sep s = some (a, b) → b.length < s.length := by
  intro s
  induction s with
  | nil => intro a b h; simp [splitFirst] at h
  | cons c cs ih =>
    intro a b h
    simp only [splitFirst] at h
    split at h
    · simp only [Option.some.injEq, Prod.mk.injEq] at h
      simp only [List.length_cons, ← h.2]
      omega
    · cases hc : splitFirst sep cs with
      | none => rw [hc] at h; simp at h
      | some p =>
        rw [hc] at h
        simp only [Option.map_some', Option.some.injEq] at h
        have h2 := ih (a := p.1) (b := p.2) (by rw [hc])
        cases h
        simp only [List.length_cons]
        omega

/-- Model of str.split(sep) with a character separator: split at every
occurrence, keeping empty pieces (Python keeps them). -/
def splitAll (sep : Char) : Str → List Str
  | [] => [[]]
  | c :: cs =>
    if c = sep then [] :: splitAll sep cs
    else
      match splitAll sep cs with
      | [] => [[c]]
      | t :: ts => (c :: t) :: ts

/-- Membership test for a character, as in the Python expression c in s. -/
def containsChar (c : Char) (s : Str) : Bool := s.any (fun d => d == c)

/-- Model of str.startswith. -/
def startsWithL (p s : Str) : Bool := List.isPrefixOf p s

/-- The numeric value of an ASCII digit character. -/
def digitVal (c : Char) : Nat := c.toNat - 48

/-- Model of str.isdigit on the ASCII fragment: nonempty and all decimal
digits. -/
def pyIsdigit (s : Str) : Bool := !s.isEmpty && s.all Char.isDigit

/-- Value of a string of decimal digits. -/
def digitsToNat (s : Str) : Nat := s.foldl (fun acc c => acc * 10 + digitVal c) 0

/-- Digit tail of the integer grammar of Python int(): digits possibly
separated by single underscores, no trailing underscore. -/
def pyIntDigitsAux : Nat → Str → Option Nat
  | acc, [] => some acc
  | acc, c :: rest =>
    if c = '_' then
      match rest with
      | [] => none
      | d :: rest2 =>
        if d.isDigit then pyIntDigitsAux (acc * 10 + digitVal d) rest2 else none
    else if c.isDigit then pyIntDigitsAux (acc * 10 + digitVal c) rest else none

/-- Unsigned part of the integer grammar of Python int(). -/
def pyIntCore : Str → Option Nat
  | [] => none
  | c :: rest => if c.isDigit then pyIntDigitsAux (digitVal c) rest else none

/-- Model of Python int(str): strip whitespace, optional sign, then digits
(ASCII fragment, with underscore grouping). Returns none where int() raises
ValueError. -/
def pyInt (s : Str) : Option Int :=
  match pyStrip s with
  | [] => none
  | c :: rest =>
    if c = '+' then
      match pyIntCore rest with
      | none => none
      | some n => some (n : Int)
    else if c = '-' then
      match pyIntCore rest with
      | none => none
      | some n => some (-(n : Int))
    else
      match pyIntCore (c :: rest) with
      | none => none
      | some n => some (n : Int)

/-! ## Directive Parser (main.py lines 120-137)

For each extracted action string the loop computes
normalized_action = action.lower().replace(" ", "_"), splits on the first
colon, and comma-splits the parameter text, stripping each parameter. -/

/-- The normalization applied to a raw directive before any splitting:
lower-case, then every literal space becomes an underscore. -/
def normalizeAction (s : Str) : Str := replaceChar ' ' '_' (pyLower s)

/-- The directive parser of the dispatch loop: normalization followed by the
first-colon split and the comma split with per-parameter strip.  A directive
without a colon has an empty parameter list; a colon with no comma yields
exactly one (stripped) parameter. -/
def parseDirective (s : Str) : Str × List Str :=
  let n := normalizeAction s
  match splitFirst ':' n with
  | none => (n, [])
  | some (actionName, paramsText) =>
    if containsChar ',' paramsText then
      (actionName, (splitAll ',' paramsText).map pyStrip)
    else
      (actionName, [pyStrip paramsText])

/-! ## Action Dispatcher (main.py lines 149-411)

The elif chain of the dispatch loop is embedded as a function from the raw
action string, the normalized action name and the parameter list to the list
of observable effects of that branch: every collaborator invocation and every
parameter-validation message spoken before any invocation.  Spoken
confirmations that depend on the return value of a collaborator call, and
logging or GUI bookkeeping, are not part of the effect model. -/

/-- One observable effect of dispatching a directive: a collaborator call, a
validation message spoken by speak_text, or the unrecognized-action record of
the final else branch. -/
inductive Effect where
  | turnOnLight
  | turnOffLight
  | playTrack (song : Str)
  | playPlaylist (playlist : Str)
  | pauseMusic
  | unpauseMusic
  | stopMusic
  | volumeUp (delta : Nat)
  | volumeDown (delta : Nat)
  | reboot
  | spawnTimer (duration : Str)
  | stopAllTimers
  | shutDown
  | readFileCall (filename : Str)
  | browseCall (query : Str)
  | writeFileCall (filename content : Str) (overwrite : Bool)
  | listFilesCall (subdirectory : Str)
  | deleteFileCall (filename : Str)
  | editFileCall (filename findText replaceText : Str)
  | appendFileCall (filename content : Str) (createIfMissing : Bool)
  | createDirCall (directory : Str)
  | moveFileCall (source destination : Str)
  | copyFileCall (source destination : Str)
  | searchFilesCall (searchText subdirectory : Str)
  | speakTime
  | dictateText (text : Str)
  | speakMsg (msg : Str)
  | unknownAction (name : Str)
deriving DecidableEq, Repr

/-- The elif chain keyed by action_name.startswith, in source order.  The raw
action string is needed by the dictate and write_code branches, which slice
the original (unnormalized) tag text. -/
def dispatchAction (raw actionName : Str) (params : List Str) : List Effect :=
  if startsWithL (strL "turn_on_light") actionName then [.turnOnLight]
  else if startsWithL (strL "turn_off_light") actionName then [.turnOffLight]
  else if startsWithL (strL "play_song") actionName then
    match params with
    | [] => []
    | p :: _ => if p = [] then [] else [.playTrack p]
  else if startsWithL (strL "play_playlist") actionName then
    match params with
    | [] => []
    | p :: _ => if p = [] then [] else [.playPlaylist p]
  else if startsWithL (strL "pause_music") actionName then [.pauseMusic]
  else if startsWithL (strL "unpause_music") actionName then [.unpauseMusic]
  else if startsWithL (strL "stop_music") actionName then [.stopMusic]
  else if startsWithL (strL "volume_up") actionName then
    match params with
    | [] => [.volumeUp 10]
    | p :: _ => if pyIsdigit p then [.volumeUp (digitsToNat p)] else [.volumeUp 10]
  else if startsWithL (strL "volume_down") actionName then
    match params with
    | [] => [.volumeDown 10]
    | p :: _ => if pyIsdigit p then [.volumeDown (digitsToNat p)] else [.volumeDown 10]
  else if startsWithL (strL "reboot") actionName then
    [.speakMsg (strL "Marvin rebooting"), .reboot]
  else if startsWithL (strL "set_timer") actionName
      || startsWithL (strL "start_timer") actionName then
    match params with
    | [] => []
    | p :: _ => if p = [] then [] else [.spawnTimer (replaceChar '_' ' ' p)]
  else if startsWithL (strL "stop_timer") actionName then [.stopAllTimers]
  else if startsWithL (strL "shut_down") actionName then
    [.speakMsg (strL "Shutting down Marvin"), .shutDown]
  else if startsWithL (strL "read_file") actionName then
    match params with
    | [] => [.speakMsg (strL "No filename specified for reading")]
    | p :: _ =>
      if p = [] then [.speakMsg (strL "No filename specified for reading")]
      else [.readFileCall p]
  else if startsWithL (strL "browse_internet") actionName then
    match params with
    | [] => [.speakMsg (strL "No search query specified for browsing the internet.")]
    | p :: _ =>
      if p = [] then [.speakMsg (strL "No search query specified for browsing the internet.")]
      else [.browseCall p]
  else if startsWithL (strL "write_file") actionName then
    match params with
    | f :: c :: [] => [.writeFileCall f c true]
    | f :: c :: t :: _ =>
      [.writeFileCall f c (if pyLower t = strL "true" then true else false)]
    | _ => [.speakMsg (strL "Insufficient parameters for writing a file")]
  else if startsWithL (strL "list_files") actionName then
    [.listFilesCall (params.headD [])]
  else if startsWithL (strL "delete_file") actionName then
    match params with
    | [] => [.speakMsg (strL "No filename specified for deletion")]
    | p :: _ =>
      if p = [] then [.speakMsg (strL "No filename specified for deletion")]
      else [.deleteFileCall p]
  else if startsWithL (strL "edit_file") actionName then
    match params with
    | f :: ft :: rt :: _ => [.editFileCall f ft rt]
    | _ => [.speakMsg (strL "Insufficient parameters for editing a file")]
  else if startsWithL (strL "append_to_file") actionName then
    match params with
    | f :: c :: [] => [.appendFileCall f c true]
    | f :: c :: t :: _ =>
      [.appendFileCall f c (if pyLower t = strL "true" then true else false)]
    | _ => [.speakMsg (strL "Insufficient parameters for appending to a file")]
  else if startsWithL (strL "create_directory") actionName then
    match params with
    | [] => [.speakMsg (strL "No directory name specified for creation")]
    | p :: _ =>
      if p = [] then [.speakMsg (strL "No directory name specified for creation")]
      else [.createDirCall p]
  else if startsWithL (strL "move_file") actionName then
    match params with
    | s :: d :: _ => [.moveFileCall s d]
    | _ => [.speakMsg (strL "Insufficient parameters for moving a file")]
  else if startsWithL (strL "copy_file") actionName then
    match params with
    | s :: d :: _ => [.copyFileCall s d]
    | _ => [.speakMsg (strL "Insufficient parameters for copying a file")]
  else if startsWithL (strL "search_files") actionName then
    match params with
    | [] => []
    | t :: rest => [.searchFilesCall t (rest.headD [])]
  else if startsWithL (strL "get_time") actionName then [.speakTime]
  else if startsWithL (strL "dictate") actionName then
    [.dictateText (pyStrip (raw.drop 7))]
  else if startsWithL (strL "write_code") actionName then
    let code := pyStrip (raw.drop 10)
    if code = [] then [] else [.dictateText code]
  else [.unknownAction actionName]

/-- Parse a raw directive and dispatch it, as the per-tag loop body does. -/
def dispatchRaw (raw : Str) : List Effect :=
  let pd := parseDirective raw
  dispatchAction raw pd.1 pd.2

/-- The action-name tokens tested by the elif chain, in source order. -/
def registeredActionNames : List Str :=
  [strL "turn_on_light", strL "turn_off_light", strL "play_song",
   strL "play_playlist", strL "pause_music", strL "unpause_music",
   strL "stop_music", strL "volume_up", strL "volume_down", strL "reboot",
   strL "set_timer", strL "start_timer", strL "stop_timer", strL "shut_down",
   strL "read_file", strL "browse_internet", strL "write_file",
   strL "list_files", strL "delete_file", strL "edit_file",
   strL "append_to_file", strL "create_directory", strL "move_file",
   strL "copy_file", strL "search_files", strL "get_time", strL "dictate",
   strL "write_code"]

/-- An action name is recognised when some registered token is a prefix of
it, mirroring the startswith tests of the chain. -/
def isKnownAction (a : Str) : Bool :=
  registeredActionNames.any (fun p => startsWithL p a)

/-- The per-reply directive loop: every extracted directive is dispatched in
order, each independently of the others. -/
def dispatchSeq (ds : List Str) : List (List Effect) := ds.map dispatchRaw

/-! ## Timers (main.py set_timer lines 422-510, stop_timer lines 512-517,
display.py add_timer and remove_timer)

The duration-parsing phase of set_timer is embedded as setTimerParse, the
unit lookup table as unitToSeconds (the mapping through unit_map to a
canonical unit followed by the seconds conversion is collapsed to a single
multiplier lookup, an equivalent presentation of the same table).  The timer
registry is the keys of display.timers in insertion order, together with the
global timer_counter. -/

/-- One character of the regex class backslash-w (ASCII fragment). -/
def isWordChar (c : Char) : Bool := c.isAlpha || c.isDigit || c == '_'

/-- The fixed case-insensitive unit table of set_timer: unit_map composed
with the seconds conversion of the valid_units branch. -/
def unitToSeconds (u : Str) : Option Nat :=
  if u = strL "s" ∨ u = strL "sec" ∨ u = strL "second" ∨ u = strL "seconds" then
    some 1
  else if u = strL "m" ∨ u = strL "min" ∨ u = strL "minute" ∨ u = strL "minutes" then
    some 60
  else if u = strL "h" ∨ u = strL "hr" ∨ u = strL "hour" ∨ u = strL "hours" then
    some 3600
  else none

/-- Model of re.match applied to the pattern of one digit group and one
word-character group: an anchored prefix match with backtracking.  The digit
group takes the maximal leading digit run, gives back its last digit when the
word group would otherwise be empty, and the word group then takes the
maximal word-character run. -/
def regexNumWord (s : Str) : Option (Str × Str) :=
  let ds := s.takeWhile Char.isDigit
  let rest := s.dropWhile Char.isDigit
  if ds.isEmpty then none
  else
    match rest with
    | c :: _ =>
      if isWordChar c then some (ds, rest.takeWhile isWordChar)
      else if 2 ≤ ds.length then some (ds.dropLast, [ds.getLast!])
      else none
    | [] => if 2 ≤ ds.length then some (ds.dropLast, [ds.getLast!]) else none

/-- The duration-parsing phase of set_timer: a two-token whitespace split
with int() and the unit table; otherwise a bare int() as seconds; otherwise
the anchored regex with the unit table.  none is every path that speaks an
error message and returns without registering a timer. -/
def setTimerParse (duration : Str) : Option Int :=
  let parts := pySplitWs duration
  if parts.length = 2 then
    match pyInt (parts.headD []) with
    | none => none
    | some v =>
      match unitToSeconds (pyLower (parts.getD 1 [])) with
      | none => none
      | some mult => some (v * mult)
  else
    match pyInt duration with
    | some v => some v
    | none =>
      match regexNumWord duration with
      | none => none
      | some (ds, u) =>
        match unitToSeconds (pyLower u) with
        | none => none
        | some mult => some ((digitsToNat ds : Int) * mult)

/-- Decimal representation of a natural number. -/
def natToStr (n : Nat) : Str :=
  if h : n < 10 then [Char.ofNat (48 + n)]
  else natToStr (n / 10) ++ [Char.ofNat (48 + n % 10)]
decreasing_by
  exact Nat.div_lt_self (by omega) (by omega)

/-- The generated timer name for one value of the global timer_counter. -/
def timerName (n : Nat) : Str := strL "timer_" ++ natToStr n

/-- Model of display.remove_timer: delete the name when present. -/
def removeTimer (name : Str) (ts : List Str) : List Str :=
  if name ∈ ts then ts.erase name else ts

/-- Model of display.add_timer: an existing timer of the same name is
removed first, then the name is appended (dict insertion order). -/
def addTimer (name : Str) (ts : List Str) : List Str :=
  removeTimer name ts ++ [name]

/-- Model of stop_timer in main.py: snapshot the running timer names and
remove each one. -/
def stopTimerOp (ts : List Str) : List Str :=
  ts.foldl (fun acc n => removeTimer n acc) ts

/-- The timer registry: the global timer_counter and the keys of
display.timers in insertion order. -/
structure TimerState where
  counter : Nat
  timers : List Str
deriving DecidableEq, Repr

/-- One call of set_timer, up to its registration point: a successful parse
registers a timer named from the current counter and increments the counter;
a failed parse leaves the state unchanged. -/
def setTimerStep (st : TimerState) (duration : Str) : TimerState × Option Int :=
  match setTimerParse duration with
  | none => (st, none)
  | some secs =>
    ({ counter := st.counter + 1,
       timers := addTimer (timerName st.counter) st.timers }, some secs)

/-! ## Directive Extractor (llm.py clean_generated_text lines 64-74 and
main.py lines 112-120)

get_ai_response returns clean_generated_text of the raw model output, so the
reply reaching the dispatch loop has already had non-action tags removed,
whitespace collapsed and asterisks removed.  The loop then removes the
matched action-tag pairs of the case-insensitive non-greedy pattern, removes
every remaining bracket-delimited span, and trims.  All three regex passes
are embedded as explicit scanners. -/

/-- Case-insensitive prefix test, for the IGNORECASE tag patterns. -/
def startsWithCI (p s : Str) : Bool := startsWithL p (pyLower s)

/-- The negative lookahead of the cleaning regex: does the text directly
after an opening angle bracket begin with an optional slash, the word
action, and a word boundary. -/
def actionLookahead (cs : Str) : Bool :=
  let t := match cs with
    | '/' :: r => r
    | r => r
  startsWithL (strL "action") t &&
    (match t.drop 6 with
     | [] => true
     | d :: _ => !isWordChar d)

/-- Worker for removeNonActionTags.  The second argument holds, reversed,
the characters consumed since an opening angle bracket whose lookahead
failed; none means no tag is open.  An unterminated candidate is emitted
verbatim at the end of input, and an immediately closed pair of brackets is
emitted verbatim because the bracket body requires at least one character. -/
def removeNATagsAux : Option Str → Str → Str
  | none, [] => []
  | some acc, [] => '<' :: acc.reverse
  | none, c :: cs =>
    if c = '<' then
      if actionLookahead cs then c :: removeNATagsAux none cs
      else removeNATagsAux (some []) cs
    else c :: removeNATagsAux none cs
  | some acc, c :: cs =>
    if c = '>' then
      if acc.isEmpty then '<' :: '>' :: removeNATagsAux none cs
      else removeNATagsAux none cs
    else removeNATagsAux (some (c :: acc)) cs

/-- Model of the first pass of clean_generated_text: remove every
bracket-delimited span that is not an action tag. -/
def removeNonActionTags (s : Str) : Str := removeNATagsAux none s

/-- Worker for collapseWs: the flag records whether the previous character
was whitespace, so each maximal whitespace run emits one space. -/
def collapseWsAux : Bool → Str → Str
  | _, [] => []
  | inRun, c :: cs =>
    if isPyWs c then
      if inRun then collapseWsAux true cs else ' ' :: collapseWsAux true cs
    else c :: collapseWsAux false cs

/-- Model of the whitespace-collapsing pass: every maximal run of
whitespace becomes a single space. -/
def collapseWs (s : Str) : Str := collapseWsAux false s

/-- Model of the asterisk-removal pass. -/
def removeStar (s : Str) : Str := s.filter (fun c => c ≠ '*')

/-- Model of clean_generated_text: remove non-action tags, collapse
whitespace and strip, remove asterisks, strip again. -/
def cleanGenerated (s : Str) : Str :=
  pyStrip (removeStar (pyStrip (collapseWs (removeNonActionTags s))))

/-- Worker for removeTags, like removeNATagsAux without the lookahead:
remove every bracket-delimited span with a nonempty body. -/
def removeTagsAux : Option Str → Str → Str
  | none, [] => []
  | some acc, [] => '<' :: acc.reverse
  | none, c :: cs =>
    if c = '<' then removeTagsAux (some []) cs
    else c :: removeTagsAux none cs
  | some acc, c :: cs =>
    if c = '>' then
      if acc.isEmpty then '<' :: '>' :: removeTagsAux none cs
      else removeTagsAux none cs
    else removeTagsAux (some (c :: acc)) cs

/-- Model of the second substitution of the speech pipeline: remove every
remaining bracket-delimited span. -/
def removeTags (s : Str) : Str := removeTagsAux none s

/-- Find the earliest closing action tag, case-insensitively, with no
newline before it (the dot of the non-greedy pattern does not match a
newline): returns the inner text before it and the remainder after it. -/
def findClose : Str → Option (Str × Str)
  | [] => none
  | c :: cs =>
    if startsWithCI (strL "</action>") (c :: cs) then some ([], List.drop 8 cs)
    else if c = '\n' then none
    else (findClose cs).map (fun p => (c :: p.1, p.2))

/-- Worker for scanActions.  The fuel only bounds the recursion; every step
consumes at least one character, so fuel equal to the length of the string
is enough and the fuel-exhausted branch is never reached from scanActions. -/
def scanActionsAux : Nat → Str → Str × List Str
  | 0, s => (s, [])
  | _ + 1, [] => ([], [])
  | fuel + 1, c :: cs =>
    if startsWithCI (strL "<action>") (c :: cs) then
      match findClose (List.drop 7 cs) with
      | some (inner, rest) =>
        let r := scanActionsAux fuel rest
        (r.1, inner :: r.2)
      | none =>
        let r := scanActionsAux fuel cs
        (c :: r.1, r.2)
    else
      let r := scanActionsAux fuel cs
      (c :: r.1, r.2)

/-- Model of the action-pair scan of the dispatch loop: the text with every
matched pair removed, and the inner texts in document order.  This single
scan serves both the substitution of line 112 and the findall of line 120,
which use the same pattern. -/
def scanActions (s : Str) : Str × List Str := scanActionsAux s.length s

/-- The speakable text of one reply: clean_generated_text inside
get_ai_response, then the action-pair removal, the generic bracket-span
removal and the final strip of the dispatch loop. -/
def extractorSpeakable (raw : Str) : Str :=
  pyStrip (removeTags (scanActions (cleanGenerated raw)).1)

/-- The ordered raw directives of one reply. -/
def extractorDirectives (raw : Str) : List Str :=
  (scanActions (cleanGenerated raw)).2

/-- One whole reply turn: the extracted directives, each parsed and
dispatched in order. -/
def processReply (raw : Str) : List (List Effect) :=
  dispatchSeq (extractorDirectives raw)

/-! ## File operations (file_operations.py)

Paths are modelled POSIX-style: a path is a string whose components are
separated by the slash character, and os.path.normpath, join, dirname are
embedded below.  The artifacts directory is a parameter artifactsDir,
assumed to be an absolute normalized path (in the source it is the join of
the absolute script directory with the name artifacts), under which
os.path.abspath of an absolute path is os.path.normpath.  The file system
is a finite map from paths to contents plus a set of directory paths;
os.listdir order and shutil metadata are outside the model. -/

/-- Model of filename.lstrip of the two separator characters. -/
def lstripSlashes (s : Str) : Str :=
  s.dropWhile (fun c => c == '/' || c == '\\')

/-- Substring test, as in the Python expression pat in s. -/
def containsSub (pat s : Str) : Bool := s.tails.any (fun t => startsWithL pat t)

/-- Join path components with slashes. -/
def joinSlash : List Str → Str
  | [] => []
  | [c] => c
  | c :: rest => c ++ '/' :: joinSlash rest

/-- Component loop of os.path.normpath: drop empty and dot components,
resolve a dot-dot against a preceding component, keep leading dot-dots of a
relative path, drop a dot-dot at the root of an absolute path.  The
accumulator is kept reversed. -/
def normpathComps (isAbs : Bool) : List Str → List Str → List Str
  | acc, [] => acc.reverse
  | acc, comp :: rest =>
    if comp = [] ∨ comp = strL "." then normpathComps isAbs acc rest
    else if comp = strL ".." then
      match acc with
      | [] =>
        if isAbs then normpathComps isAbs [] rest
        else normpathComps isAbs [comp] rest
      | top :: accRest =>
        if top = strL ".." then normpathComps isAbs (comp :: acc) rest
        else normpathComps isAbs accRest rest
    else normpathComps isAbs (comp :: acc) rest

/-- Model of os.path.normpath (POSIX rules). -/
def normpath (p : Str) : Str :=
  if p = [] then strL "."
  else
    let isAbs := startsWithL (strL "/") p
    let dslash := startsWithL (strL "//") p && !startsWithL (strL "///") p
    let body := joinSlash (normpathComps isAbs [] (splitAll '/' p))
    let pre : Str := if isAbs then (if dslash then strL "//" else strL "/") else []
    let r := pre ++ body
    if r = [] then strL "." else r

/-- Model of os.path.dirname (POSIX rules): the text up to the last slash,
with trailing slashes removed unless the head is all slashes. -/
def dirname (p : Str) : Str :=
  match splitFirst '/' p.reverse with
  | none => []
  | some (_, afterRev) =>
    let head : Str := ('/' :: afterRev).reverse
    if head.all (fun c => c = '/') then head
    else (head.reverse.dropWhile (fun c => c == '/')).reverse

/-- Model of FileOperations._validate_path.  none is the ValueError raise:
the normalized filename still contains a dot-dot pair or starts with a
separator, or the joined path escapes the artifacts directory.  some is the
returned full path. -/
def validatePath (artifactsDir filename : Str) : Option Str :=
  let clean := normpath (lstripSlashes filename)
  if containsSub (strL "..") clean || startsWithL (strL "/") clean
      || startsWithL (strL "\\") clean then none
  else
    let full := artifactsDir ++ '/' :: clean
    if startsWithL artifactsDir (normpath full) then some full else none

deriving instance DecidableEq for Except

/-- The file system: file paths with contents, and directory paths. -/
structure FS where
  files : List (Str × Str)
  dirs : List Str
deriving DecidableEq, Repr

/-- Content of a file at a path, if a file is there. -/
def fsLookup (fs : FS) (p : Str) : Option Str :=
  (fs.files.find? (fun e => e.1 == p)).map Prod.snd

def fsFileExists (fs : FS) (p : Str) : Bool := (fsLookup fs p).isSome

def fsDirExists (fs : FS) (p : Str) : Bool := fs.dirs.any (fun d => d == p)

/-- Model of os.path.exists. -/
def fsExists (fs : FS) (p : Str) : Bool := fsFileExists fs p || fsDirExists fs p

/-- Create or overwrite a file. -/
def fsSetFile (fs : FS) (p c : Str) : FS :=
  { fs with files := (p, c) :: fs.files.filter (fun e => e.1 ≠ p) }

def fsRemoveFile (fs : FS) (p : Str) : FS :=
  { fs with files := fs.files.filter (fun e => e.1 ≠ p) }

/-- Model of os.makedirs with exist_ok (ancestor creation is collapsed to
the one directory entry). -/
def fsAddDir (fs : FS) (p : Str) : FS :=
  if fsDirExists fs p then fs else { fs with dirs := p :: fs.dirs }

/-- Model of FileOperations.read_file: validation failure, a missing file
and an unreadable path all yield None inside the try block. -/
def foReadFile (art : Str) (fs : FS) (filename : Str) : Option Str :=
  match validatePath art filename with
  | none => none
  | some full => fsLookup fs full

/-- Model of FileOperations.write_file.  The directory of the target is
created before the overwrite check, exactly as in the source; opening an
existing directory path for writing raises and is caught, giving False. -/
def foWriteFile (art : Str) (fs : FS) (filename content : Str)
    (overwrite : Bool) : Bool × FS :=
  match validatePath art filename with
  | none => (false, fs)
  | some full =>
    let fs1 := fsAddDir fs (dirname full)
    if fsExists fs1 full && !overwrite then (false, fs1)
    else if fsDirExists fs1 full then (false, fs1)
    else (true, fsSetFile fs1 full content)

/-- Model of FileOperations.append_to_file. -/
def foAppendFile (art : Str) (fs : FS) (filename content : Str)
    (createIfMissing : Bool) : Bool × FS :=
  match validatePath art filename with
  | none => (false, fs)
  | some full =>
    if !fsExists fs full then
      if createIfMissing then
        let fs1 := fsAddDir fs (dirname full)
        (true, fsSetFile fs1 full content)
      else (false, fs)
    else if fsDirExists fs full then (false, fs)
    else (true, fsSetFile fs full ((fsLookup fs full).getD [] ++ content))

/-- Worker for replaceSub; the fuel is the length of the scanned text and
every step consumes at least one character. -/
def replaceSubFuel (pat rep : Str) : Nat → Str → Str
  | 0, s => s
  | _ + 1, [] => []
  | fuel + 1, c :: cs =>
    if startsWithL pat (c :: cs) then
      rep ++ replaceSubFuel pat rep fuel (List.drop (pat.length - 1) cs)
    else c :: replaceSubFuel pat rep fuel cs

/-- Model of Python str.replace: all non-overlapping occurrences, left to
right; an empty pattern interleaves the replacement around every
character. -/
def replaceSub (s pat rep : Str) : Str :=
  if pat = [] then rep ++ s.foldr (fun c acc => c :: (rep ++ acc)) []
  else replaceSubFuel pat rep s.length s

/-- Model of FileOperations.edit_file: read, replace, and write back only
when something changed. -/
def foEditFile (art : Str) (fs : FS) (filename findText replText : Str) :
    Bool × FS :=
  match foReadFile art fs filename with
  | none => (false, fs)
  | some content =>
    let newContent := replaceSub content findText replText
    if content = newContent then (true, fs)
    else foWriteFile art fs filename newContent true

/-- Model of FileOperations.delete_file; os.remove of a directory raises
and is caught, giving False. -/
def foDeleteFile (art : Str) (fs : FS) (filename : Str) : Bool × FS :=
  match validatePath art filename with
  | none => (false, fs)
  | some full =>
    if !fsExists fs full then (false, fs)
    else if fsDirExists fs full then (false, fs)
    else (true, fsRemoveFile fs full)

/-- Model of FileOperations.create_directory; os.makedirs of an existing
file path raises even with exist_ok and is caught, giving False. -/
def foCreateDirectory (art : Str) (fs : FS) (directory : Str) : Bool × FS :=
  match validatePath art directory with
  | none => (false, fs)
  | some full =>
    if fsFileExists fs full then (false, fs)
    else (true, fsAddDir fs full)

/-- Model of FileOperations.copy_file. -/
def foCopyFile (art : Str) (fs : FS) (source destination : Str) : Bool × FS :=
  match validatePath art source with
  | none => (false, fs)
  | some sp =>
    match validatePath art destination with
    | none => (false, fs)
    | some dp =>
      if !fsExists fs sp then (false, fs)
      else
        let fs1 := fsAddDir fs (dirname dp)
        match fsLookup fs1 sp with
        | some content => (true, fsSetFile fs1 dp content)
        | none => (false, fs1)

/-- Model of FileOperations.move_file. -/
def foMoveFile (art : Str) (fs : FS) (source destination : Str) : Bool × FS :=
  match validatePath art source with
  | none => (false, fs)
  | some sp =>
    match validatePath art destination with
    | none => (false, fs)
    | some dp =>
      if !fsExists fs sp then (false, fs)
      else
        let fs1 := fsAddDir fs (dirname dp)
        match fsLookup fs1 sp with
        | some content => (true, fsSetFile (fsRemoveFile fs1 sp) dp content)
        | none => (false, fs1)

/-- Model of os.path.relpath from the artifacts directory, for paths that
lie directly under it. -/
def relpathFrom (art p : Str) : Str := p.drop (art.length + 1)

/-- The regular files directly inside one directory, as paths relative to
the artifacts directory. -/
def listFilesIn (fs : FS) (dirPath art : Str) : List Str :=
  ((fs.files.map Prod.fst).filter (fun p => dirname p = dirPath)).map
    (relpathFrom art)

/-- Model of FileOperations.list_files.  The subdirectory validation runs
before the try block in the source, so its ValueError propagates to the
caller: that is the error case here.  Everything after it is inside the
try block. -/
def foListFiles (art : Str) (fs : FS) (subdirectory : Str) :
    Except Unit (List Str) :=
  if subdirectory = [] then .ok (listFilesIn fs art art)
  else
    match validatePath art subdirectory with
    | none => .error ()
    | some dirPath =>
      if !fsDirExists fs dirPath then .ok []
      else .ok (listFilesIn fs dirPath art)

/-- Model of FileOperations.search_files: its whole body is inside its try
block, so even the ValueError of the nested list_files call is caught and
becomes an empty result.  A file matches when its content is nonempty (the
truthiness test) and contains the text. -/
def foSearchFiles (art : Str) (fs : FS) (searchText subdirectory : Str) :
    List Str :=
  if subdirectory ≠ [] && (validatePath art subdirectory).isNone then []
  else if subdirectory ≠ []
      && !fsDirExists fs ((validatePath art subdirectory).getD []) then []
  else
    match foListFiles art fs subdirectory with
    | .error _ => []
    | .ok names =>
      names.filter (fun f =>
        match foReadFile art fs f with
        | some c => !c.isEmpty && containsSub searchText c
        | none => false)

/-! ## Spotify volume targets (spotify.py lines 118-170) -/

/-- The target volume requested by SpotifyClient.volume_up before the API
call. -/
def volumeUpTarget (currentVolume increment : Int) : Int :=
  min 100 (currentVolume + increment)

/-- The target volume requested by SpotifyClient.volume_down before the API
call. -/
def volumeDownTarget (currentVolume decrement : Int) : Int :=
  max 0 (currentVolume - decrement)

end Marvin


namespace Marvin
example : scanActions (strL "x<action>foo</action>y") = (strL "xy", [strL "foo"]) := by decide
example : extractorSpeakable (strL "Fine. <action>Turn_On_Light</action> Done.") =
    strL "Fine.  Done." := by decide
example : extractorDirectives (strL "Fine. <action>Turn_On_Light</action> Done.") =
    [strL "Turn_On_Light"] := by decide
example : cleanGenerated (strL "a *b*") = strL "a b" := by decide
example : extractorSpeakable (strL "a *b*") = strL "a b" := by decide
example : extractorSpeakable (strL "a <action> b") = strL "a  b" := by decide
example : setTimerParse (strL "5 minutes") = some 300 := by decide
example : setTimerParse (strL "5m!") = some 300 := by decide
example : setTimerParse (strL "7") = some 7 := by decide
example : setTimerParse (strL "5 parsecs") = none := by decide
example : setTimerParse (strL "-5 minutes") = some (-300) := by decide
example : setTimerParse (strL "5minutes") = some 300 := by decide
example : setTimerParse (strL "five minutes") = none := by decide
end Marvin

namespace Marvin
example : validatePath (strL "/base/artifacts") (strL "notes.txt") =
    some (strL "/base/artifacts/notes.txt") := by decide
example : validatePath (strL "/base/artifacts") (strL "../secret") = none := by decide
example : validatePath (strL "/base/artifacts") (strL "a/../b") =
    some (strL "/base/artifacts/b") := by decide
example : validatePath (strL "/base/artifacts") (strL "a..b") = none := by decide
example : validatePath (strL "/base/artifacts") (strL "/etc/passwd") =
    some (strL "/base/artifacts/etc/passwd") := by decide
example : foListFiles (strL "/base/artifacts") ⟨[], [strL "/base/artifacts"]⟩ (strL "..") =
    .error () := by decide
example : dirname (strL "/base/artifacts/x/y.txt") = strL "/base/artifacts/x" := by decide
example : normpath (strL "a/../b") = strL "b" := by decide
example : normpath (strL "..") = strL ".." := by decide
example : foWriteFile (strL "/base/artifacts") ⟨[], [strL "/base/artifacts"]⟩
    (strL "a/../b") (strL "hi") true =
    (true, ⟨[(strL "/base/artifacts/b", strL "hi")],
            [strL "/base/artifacts"]⟩) := by decide
end Marvin

namespace Marvin

/-! ## Supporting lemmas -/

theorem charToNat_ofNat {n : Nat} (h : n < 55296) : (Char.ofNat n).toNat = n := by
  have hv : n.isValidChar := Or.inl h
  simp [Char.ofNat, hv, Char.ofNatAux, Char.toNat, UInt32.toNat, BitVec.toNat_ofNatLt]

theorem pyLowerChar_idem (c : Char) : pyLowerChar (pyLowerChar c) = pyLowerChar c := by
  by_cases h : 65 ≤ c.toNat ∧ c.toNat ≤ 90
  · have h1 : pyLowerChar c = Char.ofNat (c.toNat + 32) := by
      unfold pyLowerChar
      rw [if_pos h]
    have ht : (Char.ofNat (c.toNat + 32)).toNat = c.toNat + 32 :=
      charToNat_ofNat (by omega)
    rw [h1]
    unfold pyLowerChar
    rw [if_neg (by rw [ht]; omega)]
  · have h1 : pyLowerChar c = c := by
      unfold pyLowerChar
      rw [if_neg h]
    rw [h1, h1]

theorem replace_lower_replace_char (c : Char) :
    (if pyLowerChar (if c = ' ' then '_' else c) = ' ' then '_'
     else pyLowerChar (if c = ' ' then '_' else c)) =
    (if pyLowerChar c = ' ' then '_' else pyLowerChar c) := by
  by_cases hc : c = ' '
  · subst hc; decide
  · rw [if_neg hc]

theorem normalizeAction_lower (s : Str) :
    normalizeAction (pyLower s) = normalizeAction s := by
  unfold normalizeAction pyLower replaceChar
  induction s with
  | nil => rfl
  | cons c cs ih =>
    simp only [List.map_cons, List.cons.injEq]
    exact ⟨by rw [pyLowerChar_idem], ih⟩

theorem normalizeAction_replace (s : Str) :
    normalizeAction (replaceChar ' ' '_' s) = normalizeAction s := by
  unfold normalizeAction pyLower replaceChar
  induction s with
  | nil => rfl
  | cons c cs ih =>
    simp only [List.map_cons, List.cons.injEq]
    exact ⟨replace_lower_replace_char c, ih⟩

end Marvin

namespace Marvin

/-! ## Claim C4 -/

/-- C4: for every raw directive the parser first lower-cases the whole
string and replaces every literal space with an underscore, and only then
splits on the first colon and on commas — so parsing is invariant under
pre-lower-casing and pre-space-replacement, and parsing
Play_Song:Bohemian Rhapsody yields action name play_song with parameter
list bohemian_rhapsody. -/
theorem C4_parser_normalization (s : Str) :
    parseDirective s = parseDirective (pyLower s) ∧
    parseDirective s = parseDirective (replaceChar ' ' '_' s) ∧
    parseDirective (strL "Play_Song:Bohemian Rhapsody") =
      (strL "play_song", [strL "bohemian_rhapsody"]) := by
  refine ⟨?_, ?_, by decide⟩
  · unfold parseDirective
    rw [normalizeAction_lower]
  · unfold parseDirective
    rw [normalizeAction_replace]

/-! ## Claim C10 -/

/-- C10: for every current volume in the unit range and every non-negative
delta, the target volume requested by volume_up is the minimum of 100 and
current plus delta, the target requested by volume_down is the maximum of 0
and current minus delta, and both targets stay within 0 to 100. -/
theorem C10_volume_targets (currentVolume delta : Int)
    (h0 : 0 ≤ currentVolume) (h100 : currentVolume ≤ 100) (hd : 0 ≤ delta) :
    volumeUpTarget currentVolume delta = min 100 (currentVolume + delta) ∧
    volumeDownTarget currentVolume delta = max 0 (currentVolume - delta) ∧
    0 ≤ volumeUpTarget currentVolume delta ∧
    volumeUpTarget currentVolume delta ≤ 100 ∧
    0 ≤ volumeDownTarget currentVolume delta ∧
    volumeDownTarget currentVolume delta ≤ 100 := by
  unfold volumeUpTarget volumeDownTarget
  omega

/-- Witness for C10 at current volume 95 and delta 20. -/
theorem C10_volume_targets_witness :
    volumeUpTarget 95 20 = min 100 (95 + 20) ∧
    volumeDownTarget 95 20 = max 0 (95 - 20) ∧
    0 ≤ volumeUpTarget 95 20 ∧ volumeUpTarget 95 20 ≤ 100 ∧
    0 ≤ volumeDownTarget 95 20 ∧ volumeDownTarget 95 20 ≤ 100 :=
  C10_volume_targets 95 20 (by decide) (by decide) (by decide)

/-! ## Claim C8 -/

theorem stopTimerOp_nodup_aux :
    ∀ (ts : List Str), ts.Nodup →
      List.foldl (fun acc n => removeTimer n acc) ts ts = [] := by
  intro ts
  induction ts with
  | nil => intro _; rfl
  | cons a t ih =>
    intro h
    have hmem : a ∈ a :: t := List.mem_cons_self a t
    have hstep : removeTimer a (a :: t) = t := by
      unfold removeTimer
      rw [if_pos hmem, List.erase_cons_head]
    simp only [List.foldl_cons, hstep]
    exact ih (List.Nodup.of_cons h)

/-- Names added by add_timer stay distinct: fresh insertion after removing
any previous entry of the same name. -/
theorem addTimer_nodup (name : Str) (ts : List Str) (h : ts.Nodup) :
    (addTimer name ts).Nodup := by
  unfold addTimer removeTimer
  split
  · refine List.Nodup.append (List.Nodup.erase name h) (List.nodup_singleton name) ?_
    intro x hx hy
    simp only [List.mem_singleton] at hy
    subst hy
    exact (List.Nodup.not_mem_erase h) hx
  · refine List.Nodup.append h (List.nodup_singleton name) ?_
    intro x hx hy
    simp only [List.mem_singleton] at hy
    subst hy
    rename_i hnm
    exact hnm hx

/-- C8: stop_timer deregisters all currently running timers unconditionally
and is idempotent; with zero active timers it succeeds, changing nothing. -/
theorem C8_stop_timer_bulk_idempotent (ts : List Str) (h : ts.Nodup) :
    stopTimerOp ts = [] ∧
    stopTimerOp (stopTimerOp ts) = stopTimerOp ts ∧
    stopTimerOp ([] : List Str) = [] := by
  have h1 : stopTimerOp ts = [] := stopTimerOp_nodup_aux ts h
  exact ⟨h1, by rw [h1]; decide, by decide⟩

/-- Witness for C8 with two registered timers. -/
theorem C8_stop_timer_bulk_idempotent_witness :
    stopTimerOp [strL "timer_0", strL "timer_1"] = [] ∧
    stopTimerOp (stopTimerOp [strL "timer_0", strL "timer_1"]) =
      stopTimerOp [strL "timer_0", strL "timer_1"] ∧
    stopTimerOp ([] : List Str) = [] :=
  C8_stop_timer_bulk_idempotent [strL "timer_0", strL "timer_1"] (by decide)

end Marvin

namespace Marvin

/-! ## Claim C5 -/

/-- C5: for volume_up and volume_down directives a first parameter that is a
digit string is used as the delta, and any other parameter shape — absence,
an empty token, or a non-numeric token — silently falls back to the fixed
default delta 10. -/
theorem C5_volume_delta :
    (∀ (raw ds : Str) (rest : List Str), pyIsdigit ds = true →
      dispatchAction raw (strL "volume_up") (ds :: rest) =
        [.volumeUp (digitsToNat ds)] ∧
      dispatchAction raw (strL "volume_down") (ds :: rest) =
        [.volumeDown (digitsToNat ds)]) ∧
    (∀ (raw p : Str) (rest : List Str), pyIsdigit p = false →
      dispatchAction raw (strL "volume_up") (p :: rest) = [.volumeUp 10] ∧
      dispatchAction raw (strL "volume_down") (p :: rest) = [.volumeDown 10]) ∧
    (∀ raw : Str,
      dispatchAction raw (strL "volume_up") [] = [.volumeUp 10] ∧
      dispatchAction raw (strL "volume_down") [] = [.volumeDown 10]) ∧
    dispatchRaw (strL "volume_up:20") = [.volumeUp 20] ∧
    dispatchRaw (strL "volume_up:abc") = [.volumeUp 10] := by
  refine ⟨?_, ?_, fun raw => ⟨rfl, rfl⟩, by decide, by decide⟩
  · intro raw ds rest h
    have hu : dispatchAction raw (strL "volume_up") (ds :: rest) =
        if pyIsdigit ds = true then [.volumeUp (digitsToNat ds)]
        else [.volumeUp 10] := rfl
    have hd : dispatchAction raw (strL "volume_down") (ds :: rest) =
        if pyIsdigit ds = true then [.volumeDown (digitsToNat ds)]
        else [.volumeDown 10] := rfl
    rw [hu, hd, if_pos h, if_pos h]
    exact ⟨rfl, rfl⟩
  · intro raw p rest h
    have hu : dispatchAction raw (strL "volume_up") (p :: rest) =
        if pyIsdigit p = true then [.volumeUp (digitsToNat p)]
        else [.volumeUp 10] := rfl
    have hd : dispatchAction raw (strL "volume_down") (p :: rest) =
        if pyIsdigit p = true then [.volumeDown (digitsToNat p)]
        else [.volumeDown 10] := rfl
    rw [hu, hd, if_neg (by rw [h]; exact Bool.false_ne_true), if_neg (by rw [h]; exact Bool.false_ne_true)]
    exact ⟨rfl, rfl⟩

/-- Witness for C5 at a digit token and a non-numeric token. -/
theorem C5_volume_delta_witness :
    dispatchAction [] (strL "volume_up") [strL "20"] = [.volumeUp 20] ∧
    dispatchAction [] (strL "volume_up") [strL "abc"] = [.volumeUp 10] :=
  ⟨((C5_volume_delta.1 [] (strL "20") [] (by decide)).1).trans (by decide),
   ((C5_volume_delta.2.1 [] (strL "abc") [] (by decide)).1)⟩

end Marvin

namespace Marvin

/-! ## Claim C6 -/

/-- C6: dispatching write_file with fewer than two parameters yields only
the insufficient-parameters message and never invokes the file-write
collaborator. -/
theorem C6_write_file_insufficient (raw : Str) (ps : List Str)
    (h : ps.length < 2) :
    dispatchAction raw (strL "write_file") ps =
      [.speakMsg (strL "Insufficient parameters for writing a file")] ∧
    ∀ f c o, Effect.writeFileCall f c o ∉ dispatchAction raw (strL "write_file") ps := by
  match ps with
  | [] =>
    refine ⟨rfl, ?_⟩
    intro f c o hmem
    rw [show dispatchAction raw (strL "write_file") [] =
        [.speakMsg (strL "Insufficient parameters for writing a file")] from rfl] at hmem
    simp at hmem
  | [x] =>
    refine ⟨rfl, ?_⟩
    intro f c o hmem
    rw [show dispatchAction raw (strL "write_file") [x] =
        [.speakMsg (strL "Insufficient parameters for writing a file")] from rfl] at hmem
    simp at hmem
  | a :: b :: t =>
    simp only [List.length_cons] at h
    omega

/-- Witness for C6 with a single parameter. -/
theorem C6_write_file_insufficient_witness :
    dispatchAction [] (strL "write_file") [strL "notes.txt"] =
      [.speakMsg (strL "Insufficient parameters for writing a file")] :=
  (C6_write_file_insufficient [] [strL "notes.txt"] (by decide)).1

/-! ## Claim C1 -/

/-- C1 counterexample: with the third write_file parameter maybe — whose
normalized text differs from false — the flag passed to the file-operations
collaborator is false, not true as the claim requires. -/
theorem C1_cex_flag_not_default_true :
    dispatchRaw (strL "write_file:f,c,maybe") =
      [.writeFileCall (strL "f") (strL "c") false] ∧
    pyLower (strL "maybe") ≠ strL "false" := by
  exact ⟨by decide, by decide⟩

/-- C1 amended: the trailing flag of write_file and append_to_file is true
exactly when the (lower-cased) third parameter equals true; every other
third-parameter value gives false, and a missing third parameter defaults to
true. -/
theorem C1_flag_amended (raw f c t : Str) (rest : List Str) :
    (dispatchAction raw (strL "write_file") (f :: c :: t :: rest) =
       [.writeFileCall f c true] ↔ pyLower t = strL "true") ∧
    (pyLower t ≠ strL "true" →
       dispatchAction raw (strL "write_file") (f :: c :: t :: rest) =
         [.writeFileCall f c false]) ∧
    dispatchAction raw (strL "write_file") [f, c] = [.writeFileCall f c true] ∧
    (dispatchAction raw (strL "append_to_file") (f :: c :: t :: rest) =
       [.appendFileCall f c true] ↔ pyLower t = strL "true") ∧
    (pyLower t ≠ strL "true" →
       dispatchAction raw (strL "append_to_file") (f :: c :: t :: rest) =
         [.appendFileCall f c false]) ∧
    dispatchAction raw (strL "append_to_file") [f, c] = [.appendFileCall f c true] := by
  have hw : dispatchAction raw (strL "write_file") (f :: c :: t :: rest) =
      [.writeFileCall f c (if pyLower t = strL "true" then true else false)] := rfl
  have ha : dispatchAction raw (strL "append_to_file") (f :: c :: t :: rest) =
      [.appendFileCall f c (if pyLower t = strL "true" then true else false)] := rfl
  by_cases h : pyLower t = strL "true"
  · rw [hw, ha, if_pos h]
    exact ⟨⟨fun _ => h, fun _ => rfl⟩, fun hn => absurd h hn, rfl,
           ⟨fun _ => h, fun _ => rfl⟩, fun hn => absurd h hn, rfl⟩
  · rw [hw, ha, if_neg h]
    refine ⟨⟨fun he => ?_, fun ht => absurd ht h⟩, fun _ => rfl, rfl,
            ⟨fun he => ?_, fun ht => absurd ht h⟩, fun _ => rfl, rfl⟩
    · simp only [List.cons.injEq, Effect.writeFileCall.injEq] at he
      exact absurd he.1.2.2 Bool.false_ne_true
    · simp only [List.cons.injEq, Effect.appendFileCall.injEq] at he
      exact absurd he.1.2.2 Bool.false_ne_true

/-- Witness for C1 amended at the third parameter maybe. -/
theorem C1_flag_amended_witness :
    dispatchAction [] (strL "write_file")
        [strL "f", strL "c", strL "maybe"] =
      [.writeFileCall (strL "f") (strL "c") false] :=
  (C1_flag_amended [] (strL "f") (strL "c") (strL "maybe") []).2.1 (by decide)

end Marvin

namespace Marvin

/-! ## Claim C7 -/

theorem dispatchAction_unknown (raw a : Str) (ps : List Str)
    (h : isKnownAction a = false) :
    dispatchAction raw a ps = [.unknownAction a] := by
  simp only [isKnownAction, registeredActionNames, List.any_cons, List.any_nil,
    Bool.or_eq_false_iff] at h
  obtain ⟨h1, h2, h3, h4, h5, h6, h7, h8, h9, h10, h11, h12, h13, h14, h15,
    h16, h17, h18, h19, h20, h21, h22, h23, h24, h25, h26, h27, h28, -⟩ := h
  simp only [dispatchAction, h1, h2, h3, h4, h5, h6, h7, h8, h9, h10, h11,
    h12, h13, h14, h15, h16, h17, h18, h19, h20, h21, h22, h23, h24, h25,
    h26, h27, h28, Bool.or_self, Bool.false_eq_true, if_false]

end Marvin

namespace Marvin

/-- C7: a directive whose normalized action name starts with no registered
action token dispatches to the unrecognized record alone — no collaborator
effect — and the directives after it in the same reply are dispatched
exactly as they would be on their own. -/
theorem C7_unknown_nonfatal (d : Str) (rest : List Str)
    (h : isKnownAction (parseDirective d).1 = false) :
    dispatchRaw d = [.unknownAction (parseDirective d).1] ∧
    dispatchSeq (d :: rest) =
      [.unknownAction (parseDirective d).1] :: dispatchSeq rest := by
  have h1 : dispatchRaw d = [.unknownAction (parseDirective d).1] :=
    dispatchAction_unknown d (parseDirective d).1 (parseDirective d).2 h
  exact ⟨h1, by simp only [dispatchSeq, List.map_cons, h1]⟩

/-- Witness for C7 at the unknown action levitate followed by a light
directive. -/
theorem C7_unknown_nonfatal_witness :
    dispatchRaw (strL "levitate") = [.unknownAction (strL "levitate")] ∧
    dispatchSeq [strL "levitate", strL "turn_on_light"] =
      [.unknownAction (strL "levitate")] :: dispatchSeq [strL "turn_on_light"] :=
  C7_unknown_nonfatal (strL "levitate") [strL "turn_on_light"] (by decide)

end Marvin

namespace Marvin

/-! ## Claim C3 -/

theorem scanActionsAux_no_match :
    ∀ (fuel : Nat) (s : Str), (scanActionsAux fuel s).2 = [] →
      (scanActionsAux fuel s).1 = s := by
  intro fuel
  induction fuel with
  | zero => intro s _; rfl
  | succ n ih =>
    intro s h
    match s with
    | [] => rfl
    | c :: cs =>
      cases hci : startsWithCI (strL "<action>") (c :: cs) with
      | false =>
        simp only [scanActionsAux, hci, Bool.false_eq_true, if_false] at h ⊢
        rw [ih cs h]
      | true =>
        cases hfc : findClose (List.drop 7 cs) with
        | none =>
          simp only [scanActionsAux, hci, if_true, hfc] at h ⊢
          rw [ih cs h]
        | some p =>
          simp only [scanActionsAux, hci, if_true, hfc] at h
          exact absurd h (List.cons_ne_nil _ _)

/-- C3 counterexample: the reply a *b* has zero directive markers, yet its
speakable text drops the asterisks, so it differs from the claimed
transform of bracket-span removal, whitespace collapsing and trimming. -/
theorem C3_cex_asterisks :
    extractorDirectives (strL "a *b*") = [] ∧
    extractorSpeakable (strL "a *b*") = strL "a b" ∧
    pyStrip (collapseWs (removeTags (strL "a *b*"))) = strL "a *b*" := by
  exact ⟨by decide, by decide, by decide⟩

/-- C3 amended: with zero directive markers the directive sequence is empty
and the speakable text is the input with non-directive bracket spans
removed, whitespace collapsed, and asterisks removed (each stage trimmed),
followed by removal of any remaining bracket spans and a final trim; the
whitespace uncovered by that later removal is not re-collapsed. -/
theorem C3_no_marker_speakable (s : Str)
    (h : (scanActions (cleanGenerated s)).2 = []) :
    extractorDirectives s = [] ∧
    extractorSpeakable s =
      pyStrip (removeTags (pyStrip (removeStar (pyStrip (collapseWs
        (removeNonActionTags s)))))) := by
  have h1 : (scanActions (cleanGenerated s)).1 = cleanGenerated s :=
    scanActionsAux_no_match _ _ h
  refine ⟨h, ?_⟩
  unfold extractorSpeakable
  rw [h1]
  rfl

/-- Witness for C3 amended on a markerless reply with markup and uneven
whitespace. -/
theorem C3_no_marker_speakable_witness :
    extractorDirectives (strL "It is  done. <b>Sigh</b>") = [] ∧
    extractorSpeakable (strL "It is  done. <b>Sigh</b>") =
      pyStrip (removeTags (pyStrip (removeStar (pyStrip (collapseWs
        (removeNonActionTags (strL "It is  done. <b>Sigh</b>"))))))) :=
  C3_no_marker_speakable (strL "It is  done. <b>Sigh</b>") (by decide)

end Marvin

namespace Marvin

/-! ## Character-class lemmas -/

theorem isDigit_toNat {c : Char} (h : c.isDigit = true) :
    48 ≤ c.toNat ∧ c.toNat ≤ 57 := by
  simp [Char.isDigit, Char.le_def] at h
  exact h

theorem isAlpha_toNat {c : Char} (h : c.isAlpha = true) :
    (65 ≤ c.toNat ∧ c.toNat ≤ 90) ∨ (97 ≤ c.toNat ∧ c.toNat ≤ 122) := by
  simp [Char.isAlpha, Char.isUpper, Char.isLower, Char.le_def] at h
  rcases h with ⟨h1, h2⟩ | ⟨h1, h2⟩
  · exact Or.inl ⟨h1, h2⟩
  · exact Or.inr ⟨h1, h2⟩

theorem isPyWs_toNat {c : Char} (h : isPyWs c = true) :
    c.toNat = 32 ∨ c.toNat = 9 ∨ c.toNat = 10 ∨ c.toNat = 13 ∨
    c.toNat = 11 ∨ c.toNat = 12 := by
  simp [isPyWs] at h
  rcases h with ((((rfl | rfl) | rfl) | rfl) | rfl) | rfl <;> decide

theorem isDigit_not_ws {c : Char} (h : c.isDigit = true) : isPyWs c = false := by
  cases hw : isPyWs c with
  | false => rfl
  | true =>
    have h1 := isDigit_toNat h
    have h2 := isPyWs_toNat hw
    omega

theorem isAlpha_not_ws {c : Char} (h : c.isAlpha = true) : isPyWs c = false := by
  cases hw : isPyWs c with
  | false => rfl
  | true =>
    have h1 := isAlpha_toNat h
    have h2 := isPyWs_toNat hw
    omega

theorem isAlpha_not_digit {c : Char} (h : c.isAlpha = true) :
    c.isDigit = false := by
  cases hd : c.isDigit with
  | false => rfl
  | true =>
    have h1 := isAlpha_toNat h
    have h2 := isDigit_toNat hd
    omega

theorem isAlpha_ne_underscore {c : Char} (h : c.isAlpha = true) : c ≠ '_' := by
  intro he
  subst he
  exact absurd h (by decide)

theorem isAlpha_word {c : Char} (h : c.isAlpha = true) : isWordChar c = true := by
  unfold isWordChar
  rw [h]
  rfl

theorem isDigit_ne_plus {c : Char} (h : c.isDigit = true) : c ≠ '+' := by
  intro he
  subst he
  exact absurd h (by decide)

theorem isDigit_ne_minus {c : Char} (h : c.isDigit = true) : c ≠ '-' := by
  intro he
  subst he
  exact absurd h (by decide)

theorem isDigit_ne_underscore {c : Char} (h : c.isDigit = true) : c ≠ '_' := by
  intro he
  subst he
  exact absurd h (by decide)

end Marvin

namespace Marvin

/-! ## Splitting and stripping lemmas -/

theorem dropWhile_all_false (p : Char → Bool) (s : Str)
    (h : ∀ c ∈ s, p c = false) : s.dropWhile p = s := by
  cases s with
  | nil => rfl
  | cons c cs =>
    rw [List.dropWhile_cons, h c (List.mem_cons_self c cs)]
    simp

theorem takeWhile_append_all (p : Char → Bool) :
    ∀ (a r : Str), (∀ c ∈ a, p c = true) →
      (∀ c, r.head? = some c → p c = false) →
      (a ++ r).takeWhile p = a ∧ (a ++ r).dropWhile p = r := by
  intro a
  induction a with
  | nil =>
    intro r _ hr
    cases r with
    | nil => exact ⟨rfl, rfl⟩
    | cons c cs =>
      have hc := hr c rfl
      simp only [List.nil_append, List.takeWhile_cons, List.dropWhile_cons, hc]
      exact ⟨rfl, rfl⟩
  | cons x xs ih =>
    intro r ha hr
    have hx : p x = true := ha x (List.mem_cons_self x xs)
    have hrest := ih r (fun c hc => ha c (List.mem_cons_of_mem x hc)) hr
    simp only [List.cons_append, List.takeWhile_cons, List.dropWhile_cons, hx,
      if_true, List.cons.injEq]
    exact ⟨⟨trivial, hrest.1⟩, hrest.2⟩

theorem takeWhile_all_true (p : Char → Bool) (s : Str)
    (h : ∀ c ∈ s, p c = true) : s.takeWhile p = s := by
  have := takeWhile_append_all p s [] h (fun c hc => by simp at hc)
  simpa using this.1

theorem pyStrip_no_ws (s : Str) (h : ∀ c ∈ s, isPyWs c = false) :
    pyStrip s = s := by
  unfold pyStrip
  rw [dropWhile_all_false isPyWs s h,
    dropWhile_all_false isPyWs s.reverse (fun c hc => h c (List.mem_reverse.mp hc)),
    List.reverse_reverse]

theorem pySplitWsAux_chunk :
    ∀ (t cur r : Str), (∀ c ∈ t, isPyWs c = false) →
      pySplitWsAux cur (t ++ r) = pySplitWsAux (t.reverse ++ cur) r := by
  intro t
  induction t with
  | nil =>
    intro cur r _
    simp
  | cons c cs ih =>
    intro cur r h
    have hc : isPyWs c = false := h c (List.mem_cons_self c cs)
    simp only [List.cons_append, pySplitWsAux, hc, Bool.false_eq_true, if_false]
    rw [show (cs.append r) = cs ++ r from rfl,
      ih (c :: cur) r (fun d hd => h d (List.mem_cons_of_mem c hd))]
    simp [List.reverse_cons, List.append_assoc]

theorem pySplitWs_single (a : Str) (hne : a ≠ [])
    (h : ∀ c ∈ a, isPyWs c = false) : pySplitWs a = [a] := by
  unfold pySplitWs
  have h1 : pySplitWsAux [] (a ++ []) = pySplitWsAux (a.reverse ++ []) [] :=
    pySplitWsAux_chunk a [] [] h
  simp only [List.append_nil] at h1
  rw [h1]
  unfold pySplitWsAux
  rw [if_neg (by simp [hne])]
  simp

theorem pySplitWs_pair (a b : Str) (ha : a ≠ []) (hb : b ≠ [])
    (hna : ∀ c ∈ a, isPyWs c = false) (hnb : ∀ c ∈ b, isPyWs c = false) :
    pySplitWs (a ++ ' ' :: b) = [a, b] := by
  unfold pySplitWs
  rw [pySplitWsAux_chunk a [] (' ' :: b) hna]
  simp only [List.append_nil]
  have hsp : isPyWs ' ' = true := by decide
  rw [show pySplitWsAux a.reverse (' ' :: b) =
      if isPyWs ' ' then
        (if a.reverse.isEmpty then pySplitWsAux [] b
         else a.reverse.reverse :: pySplitWsAux [] b)
      else pySplitWsAux (' ' :: a.reverse) b from rfl]
  rw [if_pos hsp, if_neg (by simp [ha])]
  rw [List.reverse_reverse]
  have h2 : pySplitWsAux [] (b ++ []) = pySplitWsAux (b.reverse ++ []) [] :=
    pySplitWsAux_chunk b [] [] hnb
  simp only [List.append_nil] at h2
  rw [h2]
  unfold pySplitWsAux
  rw [if_neg (by simp [hb])]
  simp

end Marvin

namespace Marvin

/-! ## Integer-parsing lemmas -/

theorem pyIntDigitsAux_cons_digit {c : Char} (hc : c.isDigit = true)
    (acc : Nat) (cs : Str) :
    pyIntDigitsAux acc (c :: cs) = pyIntDigitsAux (acc * 10 + digitVal c) cs := by
  cases cs with
  | nil => rw [pyIntDigitsAux.eq_2, if_neg (isDigit_ne_underscore hc), if_pos hc]
  | cons d rest2 =>
    rw [pyIntDigitsAux.eq_3, if_neg (isDigit_ne_underscore hc), if_pos hc]

theorem pyIntDigitsAux_cons_bad (bad : Char) (hbd : bad.isDigit = false)
    (hbu : bad ≠ '_') (acc : Nat) (r : Str) :
    pyIntDigitsAux acc (bad :: r) = none := by
  cases r with
  | nil =>
    rw [pyIntDigitsAux.eq_2, if_neg hbu,
      if_neg (by rw [hbd]; exact Bool.false_ne_true)]
  | cons d rest2 =>
    rw [pyIntDigitsAux.eq_3, if_neg hbu,
      if_neg (by rw [hbd]; exact Bool.false_ne_true)]

theorem pyIntDigitsAux_digits :
    ∀ (s : Str) (acc : Nat), (∀ c ∈ s, c.isDigit = true) →
      pyIntDigitsAux acc s = some (s.foldl (fun a c => a * 10 + digitVal c) acc) := by
  intro s
  induction s with
  | nil => intro acc _; rfl
  | cons c cs ih =>
    intro acc h
    have hc := h c (List.mem_cons_self c cs)
    rw [pyIntDigitsAux_cons_digit hc, List.foldl_cons]
    exact ih _ (fun d hd => h d (List.mem_cons_of_mem c hd))

theorem pyIntCore_digits (s : Str) (hne : s ≠ [])
    (h : ∀ c ∈ s, c.isDigit = true) : pyIntCore s = some (digitsToNat s) := by
  cases s with
  | nil => exact absurd rfl hne
  | cons c cs =>
    have hc := h c (List.mem_cons_self c cs)
    have hstep : pyIntCore (c :: cs) =
        if c.isDigit then pyIntDigitsAux (digitVal c) cs else none := rfl
    rw [hstep, if_pos hc,
      pyIntDigitsAux_digits cs (digitVal c)
        (fun d hd => h d (List.mem_cons_of_mem c hd))]
    unfold digitsToNat
    simp [List.foldl_cons]

theorem pyIsdigit_parts {s : Str} (h : pyIsdigit s = true) :
    s ≠ [] ∧ ∀ c ∈ s, c.isDigit = true := by
  unfold pyIsdigit at h
  simp only [Bool.and_eq_true, Bool.not_eq_true', List.all_eq_true] at h
  obtain ⟨h1, h2⟩ := h
  refine ⟨?_, fun c hc => h2 c hc⟩
  intro he
  subst he
  simp at h1

theorem pyInt_digits (s : Str) (h : pyIsdigit s = true) :
    pyInt s = some ((digitsToNat s : Nat) : Int) := by
  obtain ⟨hne, hall⟩ := pyIsdigit_parts h
  have hstrip : pyStrip s = s :=
    pyStrip_no_ws s (fun c hc => isDigit_not_ws (hall c hc))
  cases s with
  | nil => exact absurd rfl hne
  | cons c cs =>
    have hc := hall c (List.mem_cons_self c cs)
    have hred : pyInt (c :: cs) =
        (if c = '+' then
          (match pyIntCore cs with
           | none => none
           | some n => some ((n : Nat) : Int))
         else if c = '-' then
          (match pyIntCore cs with
           | none => none
           | some n => some (-((n : Nat) : Int)))
         else
          (match pyIntCore (c :: cs) with
           | none => none
           | some n => some ((n : Nat) : Int))) := by
      unfold pyInt
      rw [hstrip]
    rw [hred, if_neg (isDigit_ne_plus hc), if_neg (isDigit_ne_minus hc),
      pyIntCore_digits (c :: cs) (by simp) hall]

theorem pyIntDigitsAux_stops (bad : Char) (hbd : bad.isDigit = false)
    (hbu : bad ≠ '_') :
    ∀ (s r : Str) (acc : Nat), (∀ c ∈ s, c.isDigit = true) →
      pyIntDigitsAux acc (s ++ bad :: r) = none := by
  intro s
  induction s with
  | nil =>
    intro r acc _
    rw [List.nil_append]
    exact pyIntDigitsAux_cons_bad bad hbd hbu acc r
  | cons c cs ih =>
    intro r acc h
    have hc := h c (List.mem_cons_self c cs)
    rw [List.cons_append, pyIntDigitsAux_cons_digit hc]
    exact ih r _ (fun d hd => h d (List.mem_cons_of_mem c hd))

theorem pyInt_digits_then_bad (ds : Str) (bad : Char) (r : Str)
    (hd : pyIsdigit ds = true) (hbd : bad.isDigit = false) (hbu : bad ≠ '_')
    (hnws : ∀ c ∈ ds ++ bad :: r, isPyWs c = false) :
    pyInt (ds ++ bad :: r) = none := by
  obtain ⟨hne, hall⟩ := pyIsdigit_parts hd
  have hstrip : pyStrip (ds ++ bad :: r) = ds ++ bad :: r :=
    pyStrip_no_ws _ hnws
  cases ds with
  | nil => exact absurd rfl hne
  | cons c cs =>
    have hc := hall c (List.mem_cons_self c cs)
    rw [List.cons_append] at hstrip
    have hcore : pyIntCore (c :: (cs ++ bad :: r)) = none := by
      have hstep : pyIntCore (c :: (cs ++ bad :: r)) =
          if c.isDigit then pyIntDigitsAux (digitVal c) (cs ++ bad :: r)
          else none := rfl
      rw [hstep, if_pos hc]
      exact pyIntDigitsAux_stops bad hbd hbu cs r _
        (fun d hd2 => hall d (List.mem_cons_of_mem c hd2))
    have hred : pyInt ((c :: cs) ++ bad :: r) =
        (if c = '+' then
          (match pyIntCore (cs ++ bad :: r) with
           | none => none
           | some n => some ((n : Nat) : Int))
         else if c = '-' then
          (match pyIntCore (cs ++ bad :: r) with
           | none => none
           | some n => some (-((n : Nat) : Int)))
         else
          (match pyIntCore (c :: (cs ++ bad :: r)) with
           | none => none
           | some n => some ((n : Nat) : Int))) := by
      unfold pyInt
      rw [List.cons_append, hstrip]
    rw [hred, if_neg (isDigit_ne_plus hc), if_neg (isDigit_ne_minus hc), hcore]

end Marvin

namespace Marvin

/-! ## Duration-parsing lemmas -/

theorem isEmpty_false_of_ne_nil {s : Str} (h : s ≠ []) : s.isEmpty = false := by
  cases s with
  | nil => exact absurd rfl h
  | cons a b => rfl

theorem regexNumWord_digits_word (ds : Str) (x : Char) (xs : Str)
    (hne : ds ≠ []) (hds : ∀ c ∈ ds, c.isDigit = true)
    (hxd : x.isDigit = false)
    (hword : ∀ c ∈ x :: xs, isWordChar c = true) :
    regexNumWord (ds ++ x :: xs) = some (ds, x :: xs) := by
  obtain ⟨htake, hdrop⟩ := takeWhile_append_all Char.isDigit ds (x :: xs) hds
    (fun c hc => by
      simp only [List.head?_cons, Option.some.injEq] at hc
      rw [← hc]
      exact hxd)
  simp only [regexNumWord]
  rw [htake, hdrop, if_neg (by rw [isEmpty_false_of_ne_nil hne]; exact Bool.false_ne_true)]
  have hxw : isWordChar x = true := hword x (List.mem_cons_self x xs)
  rw [show (match x :: xs with
      | c :: _ =>
        if isWordChar c then some (ds, (x :: xs).takeWhile isWordChar)
        else if 2 ≤ ds.length then some (ds.dropLast, [ds.getLast!])
        else none
      | [] => if 2 ≤ ds.length then some (ds.dropLast, [ds.getLast!])
        else none) =
      (if isWordChar x then some (ds, (x :: xs).takeWhile isWordChar)
       else if 2 ≤ ds.length then some (ds.dropLast, [ds.getLast!])
       else none) from rfl]
  rw [if_pos hxw, takeWhile_all_true isWordChar (x :: xs) hword]

theorem setTimerParse_two_token (ds u : Str) (mult : Nat)
    (hd : pyIsdigit ds = true) (hune : u ≠ [])
    (hu : ∀ c ∈ u, isPyWs c = false)
    (hm : unitToSeconds (pyLower u) = some mult) :
    setTimerParse (ds ++ ' ' :: u) = some ((digitsToNat ds : Int) * mult) := by
  obtain ⟨hne, hall⟩ := pyIsdigit_parts hd
  have hsplit : pySplitWs (ds ++ ' ' :: u) = [ds, u] :=
    pySplitWs_pair ds u hne hune (fun c hc => isDigit_not_ws (hall c hc)) hu
  simp only [setTimerParse]
  rw [hsplit, if_pos (show ([ds, u] : List Str).length = 2 from rfl),
    show ([ds, u] : List Str).headD [] = ds from rfl,
    show ([ds, u] : List Str).getD 1 [] = u from rfl,
    pyInt_digits ds hd, hm]

theorem setTimerParse_unknown_unit (ds u : Str)
    (hd : pyIsdigit ds = true) (hune : u ≠ [])
    (hu : ∀ c ∈ u, isPyWs c = false)
    (hm : unitToSeconds (pyLower u) = none) :
    setTimerParse (ds ++ ' ' :: u) = none := by
  obtain ⟨hne, hall⟩ := pyIsdigit_parts hd
  have hsplit : pySplitWs (ds ++ ' ' :: u) = [ds, u] :=
    pySplitWs_pair ds u hne hune (fun c hc => isDigit_not_ws (hall c hc)) hu
  simp only [setTimerParse]
  rw [hsplit, if_pos (show ([ds, u] : List Str).length = 2 from rfl),
    show ([ds, u] : List Str).headD [] = ds from rfl,
    show ([ds, u] : List Str).getD 1 [] = u from rfl,
    pyInt_digits ds hd, hm]

theorem setTimerParse_bare (ds : Str) (hd : pyIsdigit ds = true) :
    setTimerParse ds = some ((digitsToNat ds : Nat) : Int) := by
  obtain ⟨hne, hall⟩ := pyIsdigit_parts hd
  have hsplit : pySplitWs ds = [ds] :=
    pySplitWs_single ds hne (fun c hc => isDigit_not_ws (hall c hc))
  simp only [setTimerParse]
  rw [hsplit, if_neg (show ¬ ([ds] : List Str).length = 2 by simp),
    pyInt_digits ds hd]

theorem setTimerParse_compact (ds : Str) (x : Char) (xs : Str) (mult : Nat)
    (hd : pyIsdigit ds = true)
    (halpha : ∀ c ∈ x :: xs, c.isAlpha = true)
    (hm : unitToSeconds (pyLower (x :: xs)) = some mult) :
    setTimerParse (ds ++ x :: xs) = some ((digitsToNat ds : Int) * mult) := by
  obtain ⟨hne, hall⟩ := pyIsdigit_parts hd
  have hx := halpha x (List.mem_cons_self x xs)
  have hnws : ∀ c ∈ ds ++ x :: xs, isPyWs c = false := by
    intro c hc
    rcases List.mem_append.mp hc with h1 | h2
    · exact isDigit_not_ws (hall c h1)
    · exact isAlpha_not_ws (halpha c h2)
  have hsplit : pySplitWs (ds ++ x :: xs) = [ds ++ x :: xs] :=
    pySplitWs_single _ (by simp) hnws
  simp only [setTimerParse]
  rw [hsplit, if_neg (show ¬ ([ds ++ x :: xs] : List Str).length = 2 by simp),
    pyInt_digits_then_bad ds x xs hd (isAlpha_not_digit hx)
      (isAlpha_ne_underscore hx) hnws,
    regexNumWord_digits_word ds x xs hne hall (isAlpha_not_digit hx)
      (fun c hc => isAlpha_word (halpha c hc))]
  simp [hm]

theorem setTimerStep_none (st : TimerState) (d : Str)
    (h : setTimerParse d = none) : setTimerStep st d = (st, none) := by
  unfold setTimerStep
  rw [h]

theorem setTimerStep_some (st : TimerState) (d : Str) (st2 : TimerState)
    (secs : Int) (h : setTimerStep st d = (st2, some secs)) :
    st2.counter = st.counter + 1 ∧
    st2.timers = addTimer (timerName st.counter) st.timers := by
  unfold setTimerStep at h
  cases hp : setTimerParse d with
  | none =>
    rw [hp] at h
    simp at h
  | some s =>
    rw [hp] at h
    simp only [Prod.mk.injEq, Option.some.injEq] at h
    rw [← h.1]
    exact ⟨rfl, rfl⟩

end Marvin

namespace Marvin

/-! ## Timer-name uniqueness lemmas -/

theorem natToStr_small {n : Nat} (h : n < 10) :
    natToStr n = [Char.ofNat (48 + n)] := by
  unfold natToStr
  rw [dif_pos h]

theorem natToStr_big {n : Nat} (h : ¬ n < 10) :
    natToStr n = natToStr (n / 10) ++ [Char.ofNat (48 + n % 10)] := by
  conv_lhs => rw [natToStr]
  rw [dif_neg h]

theorem natToStr_ne_nil (n : Nat) : natToStr n ≠ [] := by
  by_cases h : n < 10
  · rw [natToStr_small h]
    simp
  · rw [natToStr_big h]
    simp

theorem digitChar_inj {m n : Nat} (hm : m < 10) (hn : n < 10)
    (h : Char.ofNat (48 + m) = Char.ofNat (48 + n)) : m = n := by
  have h1 := charToNat_ofNat (n := 48 + m) (by omega)
  have h2 := charToNat_ofNat (n := 48 + n) (by omega)
  have h3 := congrArg Char.toNat h
  rw [h1, h2] at h3
  omega

theorem natToStr_inj : ∀ (m n : Nat), natToStr m = natToStr n → m = n := by
  intro m
  induction m using Nat.strong_induction_on with
  | _ m ih =>
    intro n h
    by_cases hm : m < 10 <;> by_cases hn : n < 10
    · rw [natToStr_small hm, natToStr_small hn] at h
      injection h with h1 _
      exact digitChar_inj hm hn h1
    · rw [natToStr_small hm, natToStr_big hn] at h
      have hl := congrArg List.length h
      simp only [List.length_singleton, List.length_append] at hl
      have h0 : natToStr (n / 10) = [] :=
        List.length_eq_zero.mp (by omega)
      exact absurd h0 (natToStr_ne_nil _)
    · rw [natToStr_big hm, natToStr_small hn] at h
      have hl := congrArg List.length h
      simp only [List.length_singleton, List.length_append] at hl
      have h0 : natToStr (m / 10) = [] :=
        List.length_eq_zero.mp (by omega)
      exact absurd h0 (natToStr_ne_nil _)
    · rw [natToStr_big hm, natToStr_big hn] at h
      obtain ⟨h1, h2⟩ := List.append_inj' h rfl
      have hdiv : m / 10 = n / 10 :=
        ih (m / 10) (Nat.div_lt_self (by omega) (by omega)) (n / 10) h1
      have hmod : m % 10 = n % 10 := by
        injection h2 with h3 _
        exact digitChar_inj (Nat.mod_lt _ (by omega)) (Nat.mod_lt _ (by omega)) h3
      omega

theorem timerName_inj (m n : Nat) (h : m ≠ n) : timerName m ≠ timerName n := by
  intro he
  unfold timerName at he
  exact h (natToStr_inj m n (List.append_cancel_left he))

end Marvin

namespace Marvin

/-! ## Claim C2 -/

/-- The twelve unit spellings of the claimed table with their multipliers. -/
def unitKeyMults : List (Str × Nat) :=
  [(strL "s", 1), (strL "sec", 1), (strL "second", 1), (strL "seconds", 1),
   (strL "m", 60), (strL "min", 60), (strL "minute", 60), (strL "minutes", 60),
   (strL "h", 3600), (strL "hr", 3600), (strL "hour", 3600), (strL "hours", 3600)]

/-- The duration grammar asserted by the claim text: an integer, one space
and a table unit; or an integer directly followed by a table unit
abbreviation; or a bare integer — case-insensitively. -/
def claimDurationForm (d : Str) : Bool :=
  pyIsdigit d ||
  (List.range (d.length + 1)).any (fun k =>
    pyIsdigit (d.take k) &&
      unitKeyMults.any (fun um =>
        pyLower (d.drop k) == ' ' :: um.1 || pyLower (d.drop k) == um.1))

/-- C2 counterexample: the duration 5m! is outside every claimed form, yet
the anchored regex matches its leading digits-and-word prefix, so the
directive sets a 300-second timer instead of failing. -/
theorem C2_cex_trailing_garbage :
    dispatchRaw (strL "set_timer:5m!") = [.spawnTimer (strL "5m!")] ∧
    setTimerParse (strL "5m!") = some 300 ∧
    claimDurationForm (strL "5m!") = false := by
  exact ⟨by decide, by decide, by decide⟩

/-- C2 amended: digit durations of the claimed forms parse via the fixed
unit table (digits, space and unit; digits directly followed by a unit key;
bare digits as seconds), an unknown alphabetic unit is a parse failure, a
parse failure registers no timer and leaves the state unchanged, every
successful parse registers a timer named from the incremented global
counter, timer names from distinct counters are distinct, and the
parameter 5_minutes reaches set_timer as 5 minutes, computing 300 seconds.
The accepted set is however strictly larger than the claimed forms: the
compact form is matched as a leading pattern of the string, so trailing
non-word characters are ignored, and values follow the syntax of Python
int(), so signed values are accepted in the spaced and bare forms. -/
theorem C2_timer_amended :
    (∀ (ds u : Str) (mult : Nat), pyIsdigit ds = true →
      (u, mult) ∈ unitKeyMults →
      setTimerParse (ds ++ ' ' :: u) = some ((digitsToNat ds : Int) * mult) ∧
      setTimerParse (ds ++ u) = some ((digitsToNat ds : Int) * mult)) ∧
    (∀ ds : Str, pyIsdigit ds = true →
      setTimerParse ds = some ((digitsToNat ds : Nat) : Int)) ∧
    (∀ (ds u : Str), pyIsdigit ds = true → u ≠ [] →
      (∀ c ∈ u, c.isAlpha = true) → unitToSeconds (pyLower u) = none →
      setTimerParse (ds ++ ' ' :: u) = none) ∧
    (∀ (st : TimerState) (d : Str), setTimerParse d = none →
      setTimerStep st d = (st, none)) ∧
    (∀ (st st2 : TimerState) (d : Str) (secs : Int),
      setTimerStep st d = (st2, some secs) →
      st2.counter = st.counter + 1 ∧
      st2.timers = addTimer (timerName st.counter) st.timers) ∧
    (∀ m n : Nat, m ≠ n → timerName m ≠ timerName n) ∧
    setTimerParse (strL "5 minutes") = some 300 ∧
    dispatchRaw (strL "set_timer:5_minutes") = [.spawnTimer (strL "5 minutes")] := by
  refine ⟨?_, ?_, ?_, ?_, ?_, timerName_inj, by decide, by decide⟩
  · intro ds u mult hd hu
    fin_cases hu <;>
      exact ⟨setTimerParse_two_token _ _ _ hd (by decide) (by decide) (by decide),
             setTimerParse_compact _ _ _ _ hd (by decide) (by decide)⟩
  · intro ds hd
    exact setTimerParse_bare ds hd
  · intro ds u hd hune halpha hm
    exact setTimerParse_unknown_unit ds u hd hune
      (fun c hc => isAlpha_not_ws (halpha c hc)) hm
  · intro st d h
    exact setTimerStep_none st d h
  · intro st st2 d secs h
    exact setTimerStep_some st d st2 secs h

/-- Witness for C2 amended at several concrete durations. -/
theorem C2_timer_amended_witness :
    setTimerParse (strL "7" ++ ' ' :: strL "min") =
      some ((digitsToNat (strL "7") : Int) * 60) ∧
    setTimerParse (strL "12") = some ((digitsToNat (strL "12") : Nat) : Int) ∧
    setTimerParse (strL "5" ++ ' ' :: strL "parsecs") = none ∧
    setTimerStep ⟨3, []⟩ (strL "junk") = (⟨3, []⟩, none) ∧
    timerName 0 ≠ timerName 1 :=
  ⟨(C2_timer_amended.1 (strL "7") (strL "min") 60 (by decide) (by decide)).1,
   C2_timer_amended.2.1 (strL "12") (by decide),
   C2_timer_amended.2.2.1 (strL "5") (strL "parsecs") (by decide) (by decide)
     (by decide) (by decide),
   C2_timer_amended.2.2.2.1 ⟨3, []⟩ (strL "junk") (by decide),
   C2_timer_amended.2.2.2.2.2.1 0 1 (by decide)⟩

end Marvin

namespace Marvin

/-! ## Claim C9 -/

theorem validatePath_inside (art f p : Str) (h : validatePath art f = some p) :
    ∃ rest, p = art ++ '/' :: rest ∧
      containsSub (strL "..") rest = false ∧
      startsWithL (strL "/") rest = false := by
  simp only [validatePath] at h
  split at h
  · exact absurd h (by simp)
  · rename_i hcond
    split at h
    · simp only [Option.some.injEq] at h
      simp only [Bool.or_eq_true, not_or, Bool.not_eq_true] at hcond
      exact ⟨normpath (lstripSlashes f), h.symm, hcond.1.1, hcond.1.2⟩
    · exact absurd h (by simp)

theorem foReadFile_invalid (art : Str) (fs : FS) (f : Str)
    (h : validatePath art f = none) : foReadFile art fs f = none := by
  unfold foReadFile
  rw [h]

theorem foWriteFile_invalid (art : Str) (fs : FS) (f c : Str) (ow : Bool)
    (h : validatePath art f = none) : foWriteFile art fs f c ow = (false, fs) := by
  unfold foWriteFile
  rw [h]

theorem foAppendFile_invalid (art : Str) (fs : FS) (f c : Str) (ci : Bool)
    (h : validatePath art f = none) : foAppendFile art fs f c ci = (false, fs) := by
  unfold foAppendFile
  rw [h]

theorem foEditFile_invalid (art : Str) (fs : FS) (f ft rt : Str)
    (h : validatePath art f = none) : foEditFile art fs f ft rt = (false, fs) := by
  unfold foEditFile
  rw [foReadFile_invalid art fs f h]

theorem foDeleteFile_invalid (art : Str) (fs : FS) (f : Str)
    (h : validatePath art f = none) : foDeleteFile art fs f = (false, fs) := by
  unfold foDeleteFile
  rw [h]

theorem foCreateDirectory_invalid (art : Str) (fs : FS) (d : Str)
    (h : validatePath art d = none) : foCreateDirectory art fs d = (false, fs) := by
  unfold foCreateDirectory
  rw [h]

theorem foCopyFile_invalid (art : Str) (fs : FS) (s d : Str)
    (h : validatePath art s = none ∨ validatePath art d = none) :
    foCopyFile art fs s d = (false, fs) := by
  unfold foCopyFile
  rcases h with h | h
  · rw [h]
  · cases hs : validatePath art s with
    | none => rfl
    | some sp => rw [h]

theorem foMoveFile_invalid (art : Str) (fs : FS) (s d : Str)
    (h : validatePath art s = none ∨ validatePath art d = none) :
    foMoveFile art fs s d = (false, fs) := by
  unfold foMoveFile
  rcases h with h | h
  · rw [h]
  · cases hs : validatePath art s with
    | none => rfl
    | some sp => rw [h]

theorem foListFiles_invalid (art : Str) (fs : FS) (sub : Str)
    (hne : sub ≠ []) (h : validatePath art sub = none) :
    foListFiles art fs sub = .error () := by
  unfold foListFiles
  rw [if_neg hne, h]

theorem foSearchFiles_invalid (art : Str) (fs : FS) (t sub : Str)
    (hne : sub ≠ []) (h : validatePath art sub = none) :
    foSearchFiles art fs t sub = [] := by
  unfold foSearchFiles
  rw [if_pos (by simp [hne, h])]

end Marvin

namespace Marvin

/-- C9 counterexample: list_files validates its subdirectory outside its
try block, so a traversal subdirectory raises a ValueError to the caller;
and the filename a/../b contains a dot-dot pair yet normalizes to b, so
write_file succeeds and writes inside the artifacts directory rather than
returning its failure value with no effect. -/
theorem C9_cex_raise_and_dotdot :
    foListFiles (strL "/base/artifacts") ⟨[], [strL "/base/artifacts"]⟩
      (strL "..") = .error () ∧
    validatePath (strL "/base/artifacts") (strL "a/../b") =
      some (strL "/base/artifacts/b") ∧
    foWriteFile (strL "/base/artifacts") ⟨[], [strL "/base/artifacts"]⟩
      (strL "a/../b") (strL "hi") true =
      (true, ⟨[(strL "/base/artifacts/b", strL "hi")],
              [strL "/base/artifacts"]⟩) := by
  exact ⟨by decide, by decide, by decide⟩

/-- C9 amended: every path that validation returns lies inside the
artifacts directory — it is the artifacts directory joined with a
normalized relative remainder free of dot-dot pairs; whenever validation
rejects a filename (a dot-dot pair surviving normalization, or a leading
separator), each public method returns its failure value with no
file-system effect; but a dot-dot pair that disappears under normalization
passes validation and the operation proceeds (safely, inside artifacts),
and list_files — alone among the public methods, its validation sitting
before its try block — raises the validation error to its caller instead of
returning a failure value, while search_files catches the same error from
its nested list_files call and returns an empty list. -/
theorem C9_path_safety_amended :
    (∀ (art f p : Str), validatePath art f = some p →
      ∃ rest, p = art ++ '/' :: rest ∧
        containsSub (strL "..") rest = false ∧
        startsWithL (strL "/") rest = false) ∧
    (∀ (art : Str) (fs : FS) (f c : Str) (ow : Bool),
      validatePath art f = none → foWriteFile art fs f c ow = (false, fs)) ∧
    (∀ (art : Str) (fs : FS) (f c : Str) (ci : Bool),
      validatePath art f = none → foAppendFile art fs f c ci = (false, fs)) ∧
    (∀ (art : Str) (fs : FS) (f ft rt : Str),
      validatePath art f = none → foEditFile art fs f ft rt = (false, fs)) ∧
    (∀ (art : Str) (fs : FS) (f : Str),
      validatePath art f = none → foDeleteFile art fs f = (false, fs)) ∧
    (∀ (art : Str) (fs : FS) (d : Str),
      validatePath art d = none → foCreateDirectory art fs d = (false, fs)) ∧
    (∀ (art : Str) (fs : FS) (s d : Str),
      validatePath art s = none ∨ validatePath art d = none →
      foCopyFile art fs s d = (false, fs)) ∧
    (∀ (art : Str) (fs : FS) (s d : Str),
      validatePath art s = none ∨ validatePath art d = none →
      foMoveFile art fs s d = (false, fs)) ∧
    (∀ (art : Str) (fs : FS) (f : Str),
      validatePath art f = none → foReadFile art fs f = none) ∧
    (∀ (art : Str) (fs : FS) (t sub : Str), sub ≠ [] →
      validatePath art sub = none → foSearchFiles art fs t sub = []) ∧
    (∀ (art : Str) (fs : FS) (sub : Str), sub ≠ [] →
      validatePath art sub = none → foListFiles art fs sub = .error ()) :=
  ⟨validatePath_inside, foWriteFile_invalid, foAppendFile_invalid,
   foEditFile_invalid, foDeleteFile_invalid, foCreateDirectory_invalid,
   foCopyFile_invalid, foMoveFile_invalid, foReadFile_invalid,
   foSearchFiles_invalid, foListFiles_invalid⟩

/-- Witness for C9 amended at concrete traversal filenames. -/
theorem C9_path_safety_amended_witness :
    (∃ rest, strL "/base/artifacts/notes.txt" =
        strL "/base/artifacts" ++ '/' :: rest ∧
      containsSub (strL "..") rest = false ∧
      startsWithL (strL "/") rest = false) ∧
    foWriteFile (strL "/base/artifacts") ⟨[], []⟩ (strL "../x") (strL "c")
      true = (false, ⟨[], []⟩) ∧
    foListFiles (strL "/base/artifacts") ⟨[], []⟩ (strL "../x") = .error () :=
  ⟨C9_path_safety_amended.1 (strL "/base/artifacts") (strL "notes.txt") _
     (by decide),
   C9_path_safety_amended.2.1 (strL "/base/artifacts") ⟨[], []⟩ (strL "../x")
     (strL "c") true (by decide),
   C9_path_safety_amended.2.2.2.2.2.2.2.2.2.2 (strL "/base/artifacts")
     ⟨[], []⟩ (strL "../x") (by decide) (by decide)⟩

end Marvin
